import Mathlib

/-!
Verification development for the Flowly AI chat service
(`src/backend/src/modules/ai-chat/ai-chat.service.ts`).

The TypeScript service is shallowly embedded: strings are Lean `String`s,
JavaScript regular expressions are translated into a small backtracking
regex AST (`Re`) whose matcher mirrors a JS engine (ordered alternation,
greedy/lazy quantifiers, leftmost match), JSON values are `JsonVal`, and
the stateful chat turn is explicit state passing over a session store.
The matcher and the JSON parser take a fuel argument so that every
definition is structurally recursive and kernel-evaluable on concrete
inputs.
-/

namespace Flowly

/-! ## Character classes used by the service's regular expressions -/

/-- JS `\s` (the whitespace characters relevant here). -/
def jsWsChar (c : Char) : Bool :=
  c = ' ' || c = '\t' || c = '\n' || c = '\r' || c = '\x0b' || c = '\x0c' ||
  c = ' ' || c = ' ' || c = ' ' || c = '﻿'

/-- JS line terminators (what `.` refuses to match and what `$` in
multiline mode matches before). -/
def jsLineTerm (c : Char) : Bool :=
  c = '\n' || c = '\r' || c = ' ' || c = ' '

/-- JS `.` (anything but a line terminator). -/
def jsDot (c : Char) : Bool := !jsLineTerm c

/-- Source `[a-z0-9-]`. -/
def lowAlnumDash (c : Char) : Bool :=
  ('a' ≤ c && c ≤ 'z') || ('0' ≤ c && c ≤ '9') || c = '-'

/-- Source `[a-zA-Z]`. -/
def alphaChar (c : Char) : Bool :=
  ('a' ≤ c && c ≤ 'z') || ('A' ≤ c && c ≤ 'Z')

/-! ## A small backtracking regex engine

Constructors mirror the JS regex features the service uses.  `matRun`
processes a stack of regex items against the input, with ordered
alternation and greedy/lazy quantifiers resolved exactly as a
backtracking JS engine would.  The `Bool` on `str` selects
case-insensitive matching (the `i` flag); the `Bool` on `opt`/`starCls`
selects greediness.  `grp`/`mark` implement capturing groups. -/

inductive Re where
  | emp : Re
  | lit : (Char → Bool) → Re
  | str : List Char → Bool → Re
  | seq : Re → Re → Re
  | alt : Re → Re → Re
  | opt : Re → Bool → Re
  | starCls : (Char → Bool) → Bool → Re
  | grp : Nat → Re → Re
  | eolM : Re
  | eos : Re
  | mark : Nat → List Char → Re

/-- Source `+` on a character class. -/
def rplus (p : Char → Bool) : Re := .seq (.lit p) (.starCls p true)

/-- Case-sensitive string literal. -/
def rstr (s : String) : Re := .str s.data false

/-- Case-insensitive string literal (`i` flag). -/
def rstrI (s : String) : Re := .str s.data true

/-- Sequence of several items. -/
def rseq : List Re → Re
  | [] => .emp
  | [r] => r
  | r :: rs => .seq r (rseq rs)

/-- Ordered alternation of several items. -/
def ralt : List Re → Re
  | [] => .emp
  | [r] => r
  | r :: rs => .alt r (ralt rs)

abbrev Caps := List (Nat × List Char)

/-- Run the item stack against the input; returns the captures and the
rest of the input after the match.  Priority of outcomes matches JS
backtracking order. -/
def matRun : Nat → List Re → List Char → Caps → Option (Caps × List Char)
  | 0, _, _, _ => none
  | _ + 1, [], s, caps => some (caps, s)
  | fuel + 1, item :: k, s, caps =>
    match item with
    | .emp => matRun fuel k s caps
    | .lit p =>
      match s with
      | [] => none
      | c :: rest => if p c then matRun fuel k rest caps else none
    | .str cs ci =>
      match cs with
      | [] => matRun fuel k s caps
      | c :: cs' =>
        match s with
        | [] => none
        | d :: rest =>
          if (if ci then c.toLower = d.toLower else c = d) then
            matRun fuel (.str cs' ci :: k) rest caps
          else none
    | .seq a b => matRun fuel (a :: b :: k) s caps
    | .alt a b =>
      match matRun fuel (a :: k) s caps with
      | some r => some r
      | none => matRun fuel (b :: k) s caps
    | .opt r g =>
      if g then
        match matRun fuel (r :: k) s caps with
        | some res => some res
        | none => matRun fuel k s caps
      else
        match matRun fuel k s caps with
        | some res => some res
        | none => matRun fuel (r :: k) s caps
    | .starCls p g =>
      if g then
        match s with
        | c :: rest =>
          if p c then
            match matRun fuel (.starCls p g :: k) rest caps with
            | some res => some res
            | none => matRun fuel k s caps
          else matRun fuel k s caps
        | [] => matRun fuel k s caps
      else
        match matRun fuel k s caps with
        | some res => some res
        | none =>
          match s with
          | c :: rest => if p c then matRun fuel (.starCls p g :: k) rest caps else none
          | [] => none
    | .grp n r => matRun fuel (r :: .mark n s :: k) s caps
    | .mark n saved =>
      matRun fuel k s ((n, saved.take (saved.length - s.length)) :: caps)
    | .eolM =>
      match s with
      | [] => matRun fuel k s caps
      | c :: _ => if jsLineTerm c then matRun fuel k s caps else none
    | .eos =>
      match s with
      | [] => matRun fuel k s caps
      | _ :: _ => none

/-- Generous fuel for matching a pattern once at the head of `s`; the
fuel is only a totality device, amply above the backtracking cost of the
small patterns used here. -/
def fuelFor (s : List Char) : Nat :=
  1000 + 64 * (s.length + 2) * (s.length + 2) * (s.length + 2)

/-- Leftmost match: try the pattern at each start position (what an
unanchored JS regex search does); returns captures and the input
remaining after the match. -/
def firstMatchPos (re : Re) : List Char → Option (Caps × List Char)
  | [] => matRun (fuelFor []) [re] [] []
  | c :: t =>
    match matRun (fuelFor (c :: t)) [re] (c :: t) [] with
    | some r => some r
    | none => firstMatchPos re t

/-- All matches in order (JS `matchAll` with the `g` flag): each search
resumes after the end of the previous match.  The outer counter bounds
the number of matches. -/
def allMatchesAux : Nat → Re → List Char → List Caps
  | 0, _, _ => []
  | n + 1, re, s =>
    match firstMatchPos re s with
    | none => []
    | some (caps, rest) =>
      if rest.length < s.length then caps :: allMatchesAux n re rest
      else [caps]

/-- Capture group `n` of a match, as a string. -/
def capStr (caps : Caps) (n : Nat) : Option String :=
  (caps.find? (fun c => c.1 = n)).map (fun c => String.mk c.2)

/-- Source `re.test(s)` for a `^`-anchored pattern: match at position 0 only. -/
def reTest0 (re : Re) (s : String) : Bool :=
  (matRun (fuelFor s.data) [re] s.data []).isSome

/-- First match of `re` anywhere in `s` (JS `String.match` without `g`),
returning the capture list. -/
def reFirst (re : Re) (s : String) : Option Caps :=
  (firstMatchPos re s.data).map (fun r => r.1)

/-- All matches of `re` in `s` (JS `matchAll`). -/
def reAll (re : Re) (s : String) : List Caps :=
  allMatchesAux (s.data.length + 1) re s.data

/-! ## JavaScript string helpers

Kernel-evaluable counterparts of the JS string methods the service
uses, all defined over the character list. -/

/-- Source `a.startsWith(b)`. -/
def strStarts (s pre : String) : Bool := pre.data.isPrefixOf s.data

/-- Source `a.endsWith(b)`. -/
def strEnds (s suf : String) : Bool := suf.data.reverse.isPrefixOf s.data.reverse

/-- Substring scan for `a.includes(b)`. -/
def containsSubAux : List Char → List Char → Bool
  | _, [] => true
  | [], _ :: _ => false
  | c :: t, sub => sub.isPrefixOf (c :: t) || containsSubAux t sub

/-- Source `a.includes(b)`. -/
def strIncludes (s sub : String) : Bool := containsSubAux s.data sub.data

/-- Source `a.toLowerCase()`. -/
def lowerStr (s : String) : String := String.mk (s.data.map Char.toLower)

/-- Source `a.trim()`. -/
def jsTrim (s : String) : String :=
  String.mk (((s.data.dropWhile jsWsChar).reverse.dropWhile jsWsChar).reverse)

/-- Source `.replace(/\s+/g, '-')`: every run of whitespace becomes one dash.
The `Bool` records whether we are inside a whitespace run. -/
def dashWsRunsAux : Bool → List Char → List Char
  | _, [] => []
  | inRun, c :: t =>
    if jsWsChar c then
      if inRun then dashWsRunsAux true t else '-' :: dashWsRunsAux true t
    else c :: dashWsRunsAux false t

def dashWsRuns (l : List Char) : List Char := dashWsRunsAux false l

/-- The slug conversion the service applies to display names:
`String(x).toLowerCase().replace(/\s+/g, '-').replace(/[^a-z0-9-]/g, '')`. -/
def jsSlugify (s : String) : String :=
  String.mk ((dashWsRuns ((lowerStr s).data)).filter lowAlnumDash)

/-! ## JSON values (the image of `JSON.parse`) -/

inductive JsonVal where
  | null : JsonVal
  | bool : Bool → JsonVal
  | num : Int → JsonVal
  | str : String → JsonVal
  | arr : List JsonVal → JsonVal
  | obj : List (String × JsonVal) → JsonVal

/-- JS property read `o[key]` on a parsed object (`none` = `undefined`).
The parser below never produces duplicate keys, matching a JS object. -/
def jsGet : List (String × JsonVal) → String → Option JsonVal
  | [], _ => none
  | (a, b) :: t, key => if a = key then some b else jsGet t key

/-- JS property write `o[key] = v`: replaces the value in place, or
appends the new property. -/
def jsSet : List (String × JsonVal) → String → JsonVal → List (String × JsonVal)
  | [], key, v => [(key, v)]
  | (a, b) :: t, key, v =>
    if a = key then (key, v) :: t else (a, b) :: jsSet t key v

/-- JS truthiness of a parsed JSON value. -/
def jsTruthyV : JsonVal → Bool
  | .null => false
  | .bool b => b
  | .num n => n ≠ 0
  | .str s => s ≠ ""
  | .arr _ => true
  | .obj _ => true

/-- JS truthiness of a possibly-`undefined` value. -/
def jsTruthy : Option JsonVal → Bool
  | none => false
  | some v => jsTruthyV v

mutual

/-- JS `String(x)` on a parsed JSON value. -/
def jsStringOfV : JsonVal → String
  | .null => "null"
  | .bool b => if b then "true" else "false"
  | .num n => toString n
  | .str s => s
  | .arr xs => String.intercalate "," (jsStrList xs)
  | .obj _ => "[object Object]"

/-- Array elements under JS `Array.prototype.toString` (`null` renders
as the empty string). -/
def jsStrList : List JsonVal → List String
  | [] => []
  | .null :: t => "" :: jsStrList t
  | v :: t => jsStringOfV v :: jsStrList t

end

/-- JS `String(x)` on a possibly-`undefined` value. -/
def jsStringOf : Option JsonVal → String
  | none => "undefined"
  | some v => jsStringOfV v

/-- JS loose read of a string field: the raw string when the value is a
string, otherwise its JS string coercion (the service stores `any`
values into `string`-typed fields; we model the value carried). -/
def jsAsString : Option JsonVal → Option String
  | none => none
  | some (.str s) => some s
  | some v => some (jsStringOfV v)

/-- Source `a === b` where `a` is a parsed JSON value (or `undefined`) and `b`
is an optional string field: equal strings, or both `undefined`. -/
def jsEqStr : Option JsonVal → Option String → Bool
  | none, none => true
  | some (.str a), some b => a = b
  | _, _ => false

/-! ## A JSON parser (for the subset of `JSON.parse` the payloads use)

Fuel-based recursive descent; strings support `\"` `\\` `\/` `\n` `\t`
escapes, numbers are optionally-signed integers.  The parser insists the
whole input is consumed, as `JSON.parse` does. -/

def skipJsonWs : List Char → List Char
  | [] => []
  | c :: t => if c = ' ' || c = '\t' || c = '\n' || c = '\r' then skipJsonWs t else c :: t

/-- Parse a JSON string body after the opening quote. -/
def parseJsonStr : Nat → List Char → Option (String × List Char)
  | 0, _ => none
  | _ + 1, [] => none
  | fuel + 1, c :: t =>
    if c = '"' then some ("", t)
    else if c = '\\' then
      match t with
      | [] => none
      | e :: t' =>
        let dec : Option Char :=
          if e = '"' then some '"'
          else if e = '\\' then some '\\'
          else if e = '/' then some '/'
          else if e = 'n' then some '\n'
          else if e = 't' then some '\t'
          else if e = 'r' then some '\r'
          else none
        match dec with
        | none => none
        | some d =>
          match parseJsonStr fuel t' with
          | none => none
          | some (s, rest) => some (String.mk (d :: s.data), rest)
    else
      match parseJsonStr fuel t with
      | none => none
      | some (s, rest) => some (String.mk (c :: s.data), rest)

def digitVal (c : Char) : Nat := c.toNat - '0'.toNat

def parseJsonDigits : Nat → Nat → List Char → (Nat × List Char)
  | 0, acc, s => (acc, s)
  | fuel + 1, acc, s =>
    match s with
    | [] => (acc, [])
    | c :: t => if c.isDigit then parseJsonDigits fuel (acc * 10 + digitVal c) t else (acc, c :: t)

mutual

/-- Parse one JSON value. -/
def parseJsonVal : Nat → List Char → Option (JsonVal × List Char)
  | 0, _ => none
  | fuel + 1, s =>
    match skipJsonWs s with
    | [] => none
    | c :: t =>
      if c = '{' then parseJsonObj fuel (skipJsonWs t) true
      else if c = '[' then parseJsonArr fuel (skipJsonWs t) true
      else if c = '"' then
        match parseJsonStr fuel t with
        | none => none
        | some (str, rest) => some (.str str, rest)
      else if c = 't' then
        if "rue".data.isPrefixOf t then some (.bool true, t.drop 3) else none
      else if c = 'f' then
        if "alse".data.isPrefixOf t then some (.bool false, t.drop 4) else none
      else if c = 'n' then
        if "ull".data.isPrefixOf t then some (.null, t.drop 3) else none
      else if c = '-' then
        match t with
        | [] => none
        | d :: _ =>
          if d.isDigit then
            let (n, rest) := parseJsonDigits fuel 0 t
            some (.num (-(n : Int)), rest)
          else none
      else if c.isDigit then
        let (n, rest) := parseJsonDigits fuel (digitVal c) t
        some (.num (n : Int), rest)
      else none

/-- Parse object members; `first` marks that no member was read yet (so
`}` closes an empty object). -/
def parseJsonObj : Nat → List Char → Bool → Option (JsonVal × List Char)
  | 0, _, _ => none
  | fuel + 1, s, first =>
    match s with
    | [] => none
    | c :: t =>
      if c = '}' && first then some (.obj [], t)
      else
        if c = '"' then
          match parseJsonStr fuel t with
          | none => none
          | some (key, rest) =>
            match skipJsonWs rest with
            | ':' :: rest' =>
              match parseJsonVal fuel rest' with
              | none => none
              | some (v, rest'') =>
                match skipJsonWs rest'' with
                | '}' :: rest''' => some (.obj [(key, v)], rest''')
                | ',' :: rest''' =>
                  match parseJsonObj fuel (skipJsonWs rest''') false with
                  | some (.obj fs, out) =>
                    -- JS object semantics: a later duplicate key keeps the
                    -- first insertion position but the last value.
                    match jsGet fs key with
                    | some w => some (.obj ((key, w) :: fs.filter (fun f => f.1 ≠ key)), out)
                    | none => some (.obj ((key, v) :: fs), out)
                  | _ => none
                | _ => none
            | _ => none
        else none

/-- Parse array elements. -/
def parseJsonArr : Nat → List Char → Bool → Option (JsonVal × List Char)
  | 0, _, _ => none
  | fuel + 1, s, first =>
    match s with
    | [] => none
    | c :: t =>
      if c = ']' && first then some (.arr [], t)
      else
        match parseJsonVal fuel (c :: t) with
        | none => none
        | some (v, rest) =>
          match skipJsonWs rest with
          | ']' :: rest' => some (.arr [v], rest')
          | ',' :: rest' =>
            match parseJsonArr fuel rest' false with
            | some (.arr vs, out) => some (.arr (v :: vs), out)
            | _ => none
          | _ => none

end

/-- Source `JSON.parse`: whole-input parse, `none` on any syntax error. -/
def jsonParse (s : String) : Option JsonVal :=
  match parseJsonVal (s.data.length + 2) s.data with
  | none => none
  | some (v, rest) => if skipJsonWs rest = [] then some v else none

/-! ## URL model (`new URL`, its fields, and its string form)

Only what the service reads: `protocol`, `hostname`, `port`, and enough
of the rest to rebuild `url.toString()`.  As in the WHATWG parser,
scheme and host are lowercased and a default port (`:443` for https,
`:80` for http) is dropped. -/

structure UrlParts where
  protocol : String
  hostname : String
  port : Option Nat
  path : String
deriving DecidableEq, Repr

/-- Split at the first occurrence of `sub`, if any. -/
def splitOnSub (sub : List Char) : List Char → Option (List Char × List Char)
  | [] => if sub = [] then some ([], []) else none
  | c :: t =>
    if sub.isPrefixOf (c :: t) then some ([], (c :: t).drop sub.length)
    else
      match splitOnSub sub t with
      | some (pre, rest) => some (c :: pre, rest)
      | none => none

def schemeTailChar (c : Char) : Bool :=
  alphaChar c || c.isDigit || c = '+' || c = '.' || c = '-'

def parsePortChars (l : List Char) : Option (Option Nat) :=
  if l = [] then some none
  else if l.all Char.isDigit then
    let n := l.foldl (fun a c => a * 10 + digitVal c) 0
    if n ≤ 65535 then some (some n) else none
  else none

/-- Source `new URL(s)`, for `scheme://[user@]host[:port][/path...]` URLs:
returns `none` exactly when the constructor would throw. -/
def parseUrl (s : String) : Option UrlParts :=
  match splitOnSub "://".data s.data with
  | none => none
  | some (schemeCs, afterScheme) =>
    match schemeCs with
    | [] => none
    | c0 :: ctail =>
      if !(alphaChar c0 && ctail.all schemeTailChar) then none
      else
        let proto := String.mk ((c0 :: ctail).map Char.toLower) ++ ":"
        let authority := afterScheme.takeWhile (fun c => c ≠ '/' && c ≠ '?' && c ≠ '#')
        let path := String.mk (afterScheme.dropWhile (fun c => c ≠ '/' && c ≠ '?' && c ≠ '#'))
        let hostPort :=
          if authority.contains '@' then
            ((authority.reverse.takeWhile (fun c => c ≠ '@')).reverse)
          else authority
        let hp : Option (List Char × List Char) :=
          match hostPort with
          | '[' :: t =>
            let inner := t.takeWhile (fun c => c ≠ ']')
            match t.dropWhile (fun c => c ≠ ']') with
            | ']' :: rest =>
              match rest with
              | [] => some ('[' :: inner ++ [']'], [])
              | ':' :: p => some ('[' :: inner ++ [']'], p)
              | _ => none
            | _ => none
          | l =>
            some (l.takeWhile (fun c => c ≠ ':'),
                  match l.dropWhile (fun c => c ≠ ':') with
                  | ':' :: p => p
                  | _ => [])
        match hp with
        | none => none
        | some (hostCs, portCs) =>
          if hostCs = [] then none
          else
            match parsePortChars portCs with
            | none => none
            | some port0 =>
              let host := String.mk (hostCs.map Char.toLower)
              let port :=
                if (proto = "https:" && port0 = some 443) ||
                   (proto = "http:" && port0 = some 80) then none else port0
              some ⟨proto, host, port, path⟩

/-- Source `url.toString()` for the parts we track. -/
def urlToString (u : UrlParts) : String :=
  u.protocol ++ "//" ++ u.hostname ++
  (match u.port with | some n => ":" ++ toString n | none => "") ++
  (if u.path = "" then "/" else u.path)

/-! ## The service's provider detection and URL/SSRF guard -/

/-- Source `detectProvider` (ai-chat.service.ts:59). -/
def detectProvider (apiUrl : String) : String :=
  match parseUrl apiUrl with
  | some u =>
    let hostname := u.hostname
    if hostname = "openrouter.ai" || strEnds hostname ".openrouter.ai" then "openrouter"
    else if hostname = "api.openai.com" || strEnds hostname ".api.openai.com" then "openai"
    else if hostname = "api.anthropic.com" || strEnds hostname ".api.anthropic.com" then "anthropic"
    else if hostname = "generativelanguage.googleapis.com" ||
            strEnds hostname ".generativelanguage.googleapis.com" then "google"
    else "custom"
  | none => "custom"

/-- Source `allowedHosts` (ai-chat.service.ts:864). -/
def allowedHosts : List String :=
  ["openrouter.ai", "api.openrouter.ai", "api.openai.com", "api.anthropic.com",
   "generativelanguage.googleapis.com", "aiplatform.googleapis.com"]

/-- Source regex `/^(bedrock|bedrock-runtime|bedrock-agent|bedrock-agent-runtime|bedrock-data-automation|bedrock-data-automation-runtime)(-fips)?\.([a-z0-9-]+)\.amazonaws\.com$/` -/
def awsBedrockPattern : Re :=
  rseq [.grp 1 (ralt [rstr "bedrock", rstr "bedrock-runtime", rstr "bedrock-agent",
          rstr "bedrock-agent-runtime", rstr "bedrock-data-automation",
          rstr "bedrock-data-automation-runtime"]),
        .opt (.grp 2 (rstr "-fips")) true,
        rstr ".", .grp 3 (rplus lowAlnumDash), rstr ".amazonaws.com", .eos]

/-- Source regex `/^[a-z0-9-]+\.openai\.azure\.com$/` -/
def azurePattern : Re :=
  rseq [rplus lowAlnumDash, rstr ".openai.azure.com", .eos]

/-- Source regex `/^([a-z0-9-]+\.)?aiplatform\.googleapis\.com$|^[a-z0-9-]+\.p\.googleapis\.com$/` -/
def googlePattern : Re :=
  .alt (rseq [.opt (.grp 1 (.seq (rplus lowAlnumDash) (rstr "."))) true,
              rstr "aiplatform.googleapis.com", .eos])
       (rseq [rplus lowAlnumDash, rstr ".p.googleapis.com", .eos])

/-- Source regex `/^172\.(1[6-9]|2[0-9]|3[0-1])\./` -/
def pat172 : Re :=
  rseq [rstr "172.",
        .grp 1 (ralt [.seq (rstr "1") (.lit fun c => '6' ≤ c && c ≤ '9'),
                      .seq (rstr "2") (.lit Char.isDigit),
                      .seq (rstr "3") (.lit fun c => c = '0' || c = '1')]),
        rstr "."]

/-- Source regex `/^[fF][cCdD]/` -/
def patFc : Re :=
  .seq (.lit fun c => c = 'f' || c = 'F')
       (.lit fun c => c = 'c' || c = 'C' || c = 'd' || c = 'D')

/-- Source regex `/^[fF][eE][89aAbB]/` -/
def patFe : Re :=
  rseq [.lit (fun c => c = 'f' || c = 'F'), .lit (fun c => c = 'e' || c = 'E'),
        .lit (fun c => c = '8' || c = '9' || c = 'a' || c = 'A' || c = 'b' || c = 'B')]

/-- Source `url.hostname.toLowerCase().replace(/^\[|\]$/g, '')`. -/
def stripUrlBrackets (s : String) : String :=
  let l := s.data
  let l1 := match l with
    | '[' :: t => t
    | _ => l
  String.mk (match l1.reverse with
    | ']' :: r => r.reverse
    | _ => l1)

/-- The host allow-list test of the guard (literal hosts or one of the
vendor patterns). -/
def hostAllowed (hostname : String) : Bool :=
  allowedHosts.contains hostname || reTest0 awsBedrockPattern hostname ||
  reTest0 azurePattern hostname || reTest0 googlePattern hostname

/-- The private/loopback/link-local test of the guard
(ai-chat.service.ts:917-929). -/
def isInternalHost (hostname : String) : Bool :=
  ["localhost", "127.0.0.1", "::1", "0.0.0.0"].contains hostname ||
  strStarts hostname "192.168." || strStarts hostname "10." ||
  strStarts hostname "127." || strStarts hostname "169.254." ||
  reTest0 pat172 hostname || reTest0 patFc hostname || reTest0 patFe hostname

/-- The final supported-provider test (ai-chat.service.ts:941-948). -/
def supportedProvider (hostname : String) : Bool :=
  (hostname = "api.openai.com") ||
  (hostname = "openrouter.ai" || hostname = "api.openrouter.ai") ||
  (hostname = "api.anthropic.com") ||
  reTest0 googlePattern hostname

/-- Source `.replace(/\/$/, '')`. -/
def stripTrailingSlash (s : String) : String :=
  if strEnds s "/" then String.mk s.data.dropLast else s

/-- The hostname the guard checks:
`url.hostname.toLowerCase().replace(/^\[|\]$/g, '')`. -/
def canonHost (u : UrlParts) : String := stripUrlBrackets (lowerStr u.hostname)

/-- Source `validateApiUrl` (ai-chat.service.ts:891-951): canonical URL on
success, the thrown `BadRequestException` message on failure.  The
`port` read is `url.port ? Number(url.port) : 443`. -/
def validateApiUrl (apiUrl : String) : Except String String :=
  match parseUrl apiUrl with
  | none => .error "Invalid URL format"
  | some url =>
    if url.protocol ≠ "https:" then .error "Only HTTPS URLs allowed"
    else if !hostAllowed (canonHost url) then .error "Host not allowed"
    else if isInternalHost (canonHost url) then .error "Internal IPs not allowed"
    else if url.port.getD 443 ≠ 443 then .error "Only standard HTTPS port 443 is allowed"
    else if !supportedProvider (canonHost url) then .error "Unsupported AI provider host"
    else .ok (stripTrailingSlash (urlToString url))

/-! ## Command grammar and parameter validation -/

/-- An entry of `commands.json`: a name and its parameter names, optional
ones carrying a `?` suffix. -/
structure Command where
  name : String
  params : List String
deriving DecidableEq, Repr

structure ValidationResult where
  valid : Bool
  missing : List String
  message : Option String
deriving DecidableEq, Repr

/-- The per-parameter test of `validateCommandParameters`:
`!parameters[param] || String(parameters[param]).toString().trim() === ''`. -/
def paramMissing (parameters : List (String × JsonVal)) (param : String) : Bool :=
  !jsTruthy (jsGet parameters param) || jsTrim (jsStringOf (jsGet parameters param)) = ""

/-- Source `validateCommandParameters` (ai-chat.service.ts:270-297). -/
def validateCommandParameters (commands : List Command) (commandName : String)
    (parameters : List (String × JsonVal)) : ValidationResult :=
  match commands.find? (fun cmd => cmd.name = commandName) with
  | none => ⟨false, [], some ("Unknown command: " ++ commandName)⟩
  | some command =>
    let requiredParams := command.params.filter (fun p => !strEnds p "?")
    let missing := requiredParams.filter (paramMissing parameters)
    if missing.length > 0 then
      ⟨false, missing,
       some ("Missing required parameters for " ++ commandName ++ ": " ++
             String.intercalate ", " missing)⟩
    else ⟨true, [], none⟩

/-! ## Command extraction from the assistant reply -/

/-- Source regex `/\*\*\[COMMAND:\s*([^\]]+)\]\*\*\s*(\{.*\})$/m` -/
def cmdPat1 : Re :=
  rseq [rstr "**[COMMAND:", .starCls jsWsChar true, .grp 1 (rplus (fun c => c ≠ ']')),
        rstr "]**", .starCls jsWsChar true,
        .grp 2 (rseq [rstr "\x7b", .starCls jsDot true, rstr "\x7d"]), .eolM]

/-- Source regex `/\[COMMAND:\s*([^\]]+)\]\s*(\{.*\})$/m` -/
def cmdPat2 : Re :=
  rseq [rstr "[COMMAND:", .starCls jsWsChar true, .grp 1 (rplus (fun c => c ≠ ']')),
        rstr "]", .starCls jsWsChar true,
        .grp 2 (rseq [rstr "\x7b", .starCls jsDot true, rstr "\x7d"]), .eolM]

/-- Source regex `/\[COMMAND:\s*([^\]]+)\]\s*(\{.*)/` -/
def cmdPat3 : Re :=
  rseq [rstr "[COMMAND:", .starCls jsWsChar true, .grp 1 (rplus (fun c => c ≠ ']')),
        rstr "]", .starCls jsWsChar true,
        .grp 2 (.seq (rstr "\x7b") (.starCls jsDot true))]

/-- Lines 485-493 of the service: try the three patterns in order on the
raw assistant reply (no truncation happens here); returns the raw
captures `(match[1], match[2])`. -/
def extractCommand (aiMessage : String) : Option (String × String) :=
  match reFirst cmdPat1 aiMessage with
  | some caps => some ((capStr caps 1).getD "", (capStr caps 2).getD "")
  | none =>
    match reFirst cmdPat2 aiMessage with
    | some caps => some ((capStr caps 1).getD "", (capStr caps 2).getD "")
    | none =>
      match reFirst cmdPat3 aiMessage with
      | some caps => some ((capStr caps 1).getD "", (capStr caps 2).getD "")
      | none => none

/-! ## JSON brace repair (ai-chat.service.ts:503-517) -/

/-- The final value of `openBraces` after the counting loop. -/
def braceDelta (s : String) : Int :=
  s.data.foldl (fun acc c => if c = '{' then acc + 1 else if c = '}' then acc - 1 else acc) 0

/-- Append one `'}'` per missing closing brace (none when the count is
balanced or negative). -/
def repairJson (s : String) : String :=
  s ++ String.mk (List.replicate (braceDelta s).toNat '}')

/-! ## Session context and external collaborators -/

/-- One entry of `conversationContexts` (ai-chat.service.ts:27-37);
`none` models an absent (`undefined` / deleted) field, `lastUpdated`
is an abstract timestamp. -/
structure SessionContext where
  workspaceSlug : Option String := none
  workspaceName : Option String := none
  projectSlug : Option String := none
  projectName : Option String := none
  lastUpdated : Nat := 0
  currentWorkSpaceProjectSlug : Option (List String) := none
deriving DecidableEq, Repr

/-- JS truthiness of an optional string field (`undefined` and `''` are
falsy). -/
def optStrTruthy : Option String → Bool
  | none => false
  | some s => s ≠ ""

inductive SlugStatus where
  | exact : SlugStatus
  | fuzzy : SlugStatus
  | not_found : SlugStatus
deriving DecidableEq, Repr

structure SlugResult where
  status : SlugStatus
  slug : String
deriving DecidableEq, Repr

/-- External collaborators of a chat turn: the command grammar and the
workspace/project services. -/
structure ChatEnv where
  commands : List Command
  validateProjectSlug : Option JsonVal → SlugResult
  getIdBySlug : String → Option String
  getAllSlugsByWorkspaceId : String → List String

/-! ## Context mutation from a resolved command
(`updateContextFromCommand`, ai-chat.service.ts:634-719) -/

def updateContextFromCommand (env : ChatEnv) (commandName : String)
    (parameters : List (String × JsonVal)) (ctx : SessionContext) (now : Nat) :
    SessionContext :=
  let ctx :=
    if commandName = "navigateToWorkspace" then
      if jsTruthy (jsGet parameters "workspaceSlug") then
        let wsParam := jsGet parameters "workspaceSlug"
        let slug := env.getIdBySlug (jsStringOf wsParam)
        let projects := env.getAllSlugsByWorkspaceId (slug.getD "")
        { ctx with
          currentWorkSpaceProjectSlug := some projects,
          workspaceSlug := jsAsString wsParam,
          workspaceName :=
            if jsTruthy (jsGet parameters "workspaceName") then
              jsAsString (jsGet parameters "workspaceName")
            else jsAsString wsParam,
          projectSlug := none, projectName := none }
      else ctx
    else ctx
  let ctx :=
    if commandName = "createWorkspace" then
      if jsTruthy (jsGet parameters "name") then
        let nameStr := jsStringOf (jsGet parameters "name")
        { ctx with
          workspaceSlug := some (jsSlugify nameStr),
          workspaceName := some nameStr,
          projectSlug := none, projectName := none }
      else ctx
    else ctx
  let ctx :=
    if commandName = "navigateToProject" || commandName = "createProject" then
      let name := jsGet parameters "name"
      let projectSlug := jsGet parameters "projectSlug"
      let workspaceSlug := jsGet parameters "workspaceSlug"
      let ctx :=
        if commandName = "createProject" then
          { ctx with
            projectSlug :=
              if jsTruthy name then some (jsSlugify (jsStringOf name))
              else jsAsString projectSlug,
            projectName :=
              if jsTruthy name then jsAsString name else jsAsString projectSlug }
        else if commandName = "navigateToProject" then
          { ctx with
            projectSlug :=
              if jsTruthy projectSlug then jsAsString projectSlug
              else if jsTruthy name then some (jsSlugify (jsStringOf name))
              else none,
            projectName :=
              if jsTruthy projectSlug then jsAsString projectSlug else jsAsString name }
        else ctx
      if jsTruthy workspaceSlug then
        { ctx with workspaceSlug := jsAsString workspaceSlug }
      else ctx
    else ctx
  let updatesName : Option JsonVal :=
    match jsGet parameters "updates" with
    | some (.obj fs) => jsGet fs "name"
    | _ => none
  let ctx :=
    if commandName = "editWorkspace" && jsTruthy updatesName then
      if jsTruthy (jsGet parameters "workspaceSlug") then
        { ctx with
          workspaceSlug := jsAsString (jsGet parameters "workspaceSlug"),
          workspaceName := jsAsString updatesName }
      else ctx
    else ctx
  { ctx with lastUpdated := now }

/-! ## Heuristic context extraction from the user message
(`extractContextFromMessage`, ai-chat.service.ts:720-854) -/

def MAX_MESSAGE_LENGTH : Nat := 10000

/-- Source `message.substring(0, MAX_MESSAGE_LENGTH)` when over the cap. -/
def truncateMsg (message : String) : String :=
  if message.data.length > MAX_MESSAGE_LENGTH then
    String.mk (message.data.take MAX_MESSAGE_LENGTH)
  else message

def quoteChar (c : Char) : Bool := c = '"' || c = '\x27'

def notQuote (c : Char) : Bool := !quoteChar c

/-- Source `[^"'.,!?\n]`. -/
def notDelim (c : Char) : Bool :=
  !(quoteChar c || c = '.' || c = ',' || c = '!' || c = '?' || c = '\n')

/-- Source `[^"'.,!?\n\s]`. -/
def notDelimNs (c : Char) : Bool := notDelim c && !jsWsChar c

/-- Source `(?:go\s+with|use|with|navigate\s+to|go\s+to)` (with the `i` flag). -/
def goVerb : Re :=
  ralt [rseq [rstrI "go", rplus jsWsChar, rstrI "with"], rstrI "use", rstrI "with",
        rseq [rstrI "navigate", rplus jsWsChar, rstrI "to"],
        rseq [rstrI "go", rplus jsWsChar, rstrI "to"]]

/-- Source regex `/(?:go\s+with|use|with|navigate\s+to|go\s+to)\s+workspace\s+["']([^"']+)["']?/gi` -/
def wsPat1 : Re :=
  rseq [goVerb, rplus jsWsChar, rstrI "workspace", rplus jsWsChar,
        .lit quoteChar, .grp 1 (rplus notQuote), .opt (.lit quoteChar) true]

/-- Source regex `/workspace\s+is\s+["']([^"']+)["']?/gi` -/
def wsPat2 : Re :=
  rseq [rstrI "workspace", rplus jsWsChar, rstrI "is", rplus jsWsChar,
        .lit quoteChar, .grp 1 (rplus notQuote), .opt (.lit quoteChar) true]

/-- Source regex `/use\s+["']?([^"'.,!?\n]+)\s+workspace["']?/gi` -/
def wsPat3 : Re :=
  rseq [rstrI "use", rplus jsWsChar, .opt (.lit quoteChar) true,
        .grp 1 (rplus notDelim), rplus jsWsChar, rstrI "workspace",
        .opt (.lit quoteChar) true]

/-- Source regex `/["']([^"']+)\s+workspace["']?/gi` -/
def wsPat4 : Re :=
  rseq [.lit quoteChar, .grp 1 (rplus notQuote), rplus jsWsChar, rstrI "workspace",
        .opt (.lit quoteChar) true]

/-- Source regex `/in\s+(?:the\s+)?["']?([^"'.,!?\n]+)\s+workspace["']?/gi` -/
def wsPat5 : Re :=
  rseq [rstrI "in", rplus jsWsChar, .opt (rseq [rstrI "the", rplus jsWsChar]) true,
        .opt (.lit quoteChar) true, .grp 1 (rplus notDelim), rplus jsWsChar,
        rstrI "workspace", .opt (.lit quoteChar) true]

/-- Source regex `/["']?([a-zA-Z][^"'.,!?\n]*?)\s+w[uo]rkspace["']?/gi` -/
def wsPat6 : Re :=
  rseq [.opt (.lit quoteChar) true,
        .grp 1 (.seq (.lit alphaChar) (.starCls notDelim false)), rplus jsWsChar,
        rstrI "w", .lit (fun c => c = 'u' || c = 'o' || c = 'U' || c = 'O'),
        rstrI "rkspace", .opt (.lit quoteChar) true]

/-- Source regex `/(?:take\s+me\s+to|navigate\s+to|go\s+to)\s+["']?([^"'.,!?\n]+)["']?(?:\s+workspace)?/gi` -/
def wsPat7 : Re :=
  rseq [ralt [rseq [rstrI "take", rplus jsWsChar, rstrI "me", rplus jsWsChar, rstrI "to"],
              rseq [rstrI "navigate", rplus jsWsChar, rstrI "to"],
              rseq [rstrI "go", rplus jsWsChar, rstrI "to"]],
        rplus jsWsChar, .opt (.lit quoteChar) true, .grp 1 (rplus notDelim),
        .opt (.lit quoteChar) true, .opt (rseq [rplus jsWsChar, rstrI "workspace"]) true]

def workspacePatterns : List Re := [wsPat1, wsPat2, wsPat3, wsPat4, wsPat5, wsPat6, wsPat7]

/-- Source regex `/(?:ok,?\s+)?(?:go\s+with|use|with|navigate\s+to|go\s+to)\s+["']?([^"'.,!?\n]+?)\s+project["']?/gi` -/
def prPat1 : Re :=
  rseq [.opt (rseq [rstrI "ok", .opt (rstr ",") true, rplus jsWsChar]) true,
        goVerb, rplus jsWsChar, .opt (.lit quoteChar) true,
        .grp 1 (.seq (.lit notDelim) (.starCls notDelim false)), rplus jsWsChar,
        rstrI "project", .opt (.lit quoteChar) true]

/-- Source regex `/(?:i\s+)?(?:choose|select|pick)\s+["']?([^"'.,!?\n]+)["']?/gi` -/
def prPat2 : Re :=
  rseq [.opt (rseq [rstrI "i", rplus jsWsChar]) true,
        ralt [rstrI "choose", rstrI "select", rstrI "pick"], rplus jsWsChar,
        .opt (.lit quoteChar) true, .grp 1 (rplus notDelim), .opt (.lit quoteChar) true]

/-- Source regex `/project\s+is\s+["']?([^"'.,!?\n]+)["']?/gi` -/
def prPat3 : Re :=
  rseq [rstrI "project", rplus jsWsChar, rstrI "is", rplus jsWsChar,
        .opt (.lit quoteChar) true, .grp 1 (rplus notDelim), .opt (.lit quoteChar) true]

/-- Source regex `/["']?([^"'.,!?\n\s]+)\s+project["']?/gi` -/
def prPat4 : Re :=
  rseq [.opt (.lit quoteChar) true, .grp 1 (rplus notDelimNs), rplus jsWsChar,
        rstrI "project", .opt (.lit quoteChar) true]

/-- Source regex `/in\s+(?:the\s+)?["']?([^"'.,!?\n]+?)\s+project["']?/gi` -/
def prPat5 : Re :=
  rseq [rstrI "in", rplus jsWsChar, .opt (rseq [rstrI "the", rplus jsWsChar]) true,
        .opt (.lit quoteChar) true,
        .grp 1 (.seq (.lit notDelim) (.starCls notDelim false)), rplus jsWsChar,
        rstrI "project", .opt (.lit quoteChar) true]

/-- Source regex `/(?:take\s+me\s+to|navigate\s+to|go\s+to)\s+project\s+["']?([^"'.,!?\n]+)["']?/gi` -/
def prPat6 : Re :=
  rseq [ralt [rseq [rstrI "take", rplus jsWsChar, rstrI "me", rplus jsWsChar, rstrI "to"],
              rseq [rstrI "navigate", rplus jsWsChar, rstrI "to"],
              rseq [rstrI "go", rplus jsWsChar, rstrI "to"]],
        rplus jsWsChar, rstrI "project", rplus jsWsChar,
        .opt (.lit quoteChar) true, .grp 1 (rplus notDelim), .opt (.lit quoteChar) true]

def projectPatterns : List Re := [prPat1, prPat2, prPat3, prPat4, prPat5, prPat6]

def skipWords : List String :=
  ["yes", "no", "ok", "fine", "good", "sure", "right", "correct", "thanks",
   "thank you", "i want to create a task drink water",
   "can you first list the projects sot hat i can choose",
   "the", "a", "an", "and", "or", "but", "with", "without", "please", "help"]

/-- First match whose capture group 1 is truthy (the inner `for` loop of
the workspace-pattern pass). -/
def firstTruthyCap : List Caps → Option String
  | [] => none
  | caps :: rest =>
    match capStr caps 1 with
    | some c => if c ≠ "" then some c else firstTruthyCap rest
    | none => firstTruthyCap rest

def applyWsPattern (lowerMessage safeMessage : String) (st : SessionContext × Bool)
    (pat : Re) : SessionContext × Bool :=
  match firstTruthyCap (reAll pat safeMessage) with
  | none => st
  | some c =>
    let workspaceName := jsTrim c
    let ctx := { st.1 with workspaceName := some workspaceName }
    let ctx :=
      if !strIncludes lowerMessage "project" then
        { ctx with projectSlug := none, projectName := none }
      else ctx
    (ctx, true)

/-- The filters of the project-pattern pass (ai-chat.service.ts:783-821). -/
def acceptProjectName (projectName : String) : Bool :=
  !(strIncludes (lowerStr projectName) "workspace" ||
    strIncludes (lowerStr projectName) "wokspace") &&
  !(skipWords.any (fun word => strIncludes (lowerStr projectName) word) ||
    strStarts (lowerStr projectName) "i want to" ||
    strStarts (lowerStr projectName) "can you")

/-- First match of a project pattern that survives the skip conditions. -/
def firstAcceptedProject : List Caps → Option String
  | [] => none
  | caps :: rest =>
    match capStr caps 1 with
    | some c =>
      if c ≠ "" then
        let projectName := jsTrim c
        if acceptProjectName projectName then some projectName
        else firstAcceptedProject rest
      else firstAcceptedProject rest
    | none => firstAcceptedProject rest

def applyProjectPattern (safeMessage : String) (st : SessionContext × Bool)
    (pat : Re) : SessionContext × Bool :=
  match firstAcceptedProject (reAll pat safeMessage) with
  | none => st
  | some projectName =>
    ({ st.1 with
       projectSlug := some (jsSlugify projectName),
       projectName := some projectName }, true)

/-- The tail of `extractContextFromMessage`: refresh `lastUpdated` and
store only when `contextUpdated` is set. -/
def extractFinish (st : SessionContext × Bool) (now : Nat) : SessionContext × Bool :=
  if st.2 then ({ st.1 with lastUpdated := now }, true) else st

/-- Source `extractContextFromMessage`: returns the (in-place mutated) context
and the `contextUpdated` flag. -/
def extractContextFromMessage (message : String) (ctx : SessionContext) (now : Nat) :
    SessionContext × Bool :=
  extractFinish
    (projectPatterns.foldl (applyProjectPattern (truncateMsg message))
      (workspacePatterns.foldl
        (applyWsPattern (lowerStr (truncateMsg message)) (truncateMsg message))
        (ctx, false)))
    now

/-! ## The command-processing tail of a chat turn
(ai-chat.service.ts:480-614, after the provider reply has arrived) -/

structure ChatAction where
  name : String
  parameters : List (String × JsonVal)

structure ChatResponse where
  message : String
  action : Option ChatAction
  success : Bool
  error : Option String

def exactMsg (slug : String) : String :=
  "✅ Great! I found the project **" ++ slug ++ "**. Taking you there now."

def fuzzyMsg (slug : String) : String :=
  "🤔 I couldn’t find an exact match, but I found something close: **" ++ slug ++
  "**. Navigating there for you."

def notFoundMsg : String :=
  "⚠️ I couldn\x27t find any project matching that name.\n                  Try again with a different project name, or use **list all projects** to see what\x27s available."

/-- Extraction plus JSON parsing (with the brace-repair fallback) of the
command payload: the trimmed command name and the parsed parameter
object, or `none` when no pattern matched or the payload stayed
malformed after repair. -/
def parsedCommandOf (aiMessage : String) : Option (String × List (String × JsonVal)) :=
  match extractCommand aiMessage with
  | none => none
  | some (rawName, rawParams) =>
    let commandName := jsTrim rawName
    let parametersString := if rawParams = "" then "\x7b\x7d" else rawParams
    let parsed : Option JsonVal :=
      match jsonParse parametersString with
      | some v => some v
      | none => jsonParse (repairJson parametersString)
    match parsed with
    | none => none
    | some pv => some (commandName, match pv with | .obj fs => fs | _ => [])

/-- First half of the context auto-fill (lines 548-552): fill
`workspaceSlug` from the session context for all but the two
context-independent commands. -/
def autoFillWs (ctx : SessionContext) (commandName : String)
    (parameters : List (String × JsonVal)) : List (String × JsonVal) :=
  if commandName ≠ "listWorkspaces" && commandName ≠ "createWorkspace" &&
     !jsTruthy (jsGet parameters "workspaceSlug") && optStrTruthy ctx.workspaceSlug then
    jsSet parameters "workspaceSlug" (.str (ctx.workspaceSlug.getD ""))
  else parameters

/-- The context auto-fill of lines 546-562: `workspaceSlug` first, then
`projectSlug` for task/project commands whose workspace agrees with the
context. -/
def autoFillParams (ctx : SessionContext) (commandName : String)
    (parameters : List (String × JsonVal)) : List (String × JsonVal) :=
  if (strIncludes commandName "Task" || strIncludes commandName "Project") &&
     !jsTruthy (jsGet (autoFillWs ctx commandName parameters) "projectSlug") &&
     optStrTruthy ctx.projectSlug &&
     jsEqStr (jsGet (autoFillWs ctx commandName parameters) "workspaceSlug")
       ctx.workspaceSlug then
    jsSet (autoFillWs ctx commandName parameters) "projectSlug"
      (.str (ctx.projectSlug.getD ""))
  else autoFillWs ctx commandName parameters

/-- The `navigateToProject` slug-resolution switch of lines 565-592:
returns the possibly-overridden assistant message and parameters. -/
def resolveProjectStep (env : ChatEnv) (commandName aiMessage0 : String)
    (parameters : List (String × JsonVal)) : String × List (String × JsonVal) :=
  if commandName = "navigateToProject" then
    let r := env.validateProjectSlug (jsGet parameters "projectSlug")
    let parameters :=
      if r.status = .exact || r.status = .fuzzy then
        jsSet parameters "projectSlug" (.str r.slug)
      else parameters
    match r.status with
    | .exact => (exactMsg r.slug, parameters)
    | .fuzzy => (fuzzyMsg r.slug, parameters)
    | .not_found => (notFoundMsg, jsSet parameters "projectSlug" (.str ""))
  else (aiMessage0, parameters)

/-- Processing of the assistant reply: command extraction, JSON parse
with brace repair, grammar validation, context auto-fill, project-slug
resolution, action production and context update.  Returns the response,
the session context afterwards, and whether `updateContextFromCommand`
ran (stored the context).  A parse failure is swallowed by the inner
catch, so it yields the plain reply without an action, exactly like the
no-match case. -/
def processAiMessage (env : ChatEnv) (aiMessage0 : String) (ctx : SessionContext)
    (now : Nat) : ChatResponse × SessionContext × Bool :=
  match parsedCommandOf aiMessage0 with
  | none => ({ message := aiMessage0, action := none, success := true, error := none }, ctx, false)
  | some (commandName, parameters) =>
    let validation := validateCommandParameters env.commands commandName parameters
    if !validation.valid then
      let missingParamsList :=
        if validation.missing.length > 0 then
          "I need the following information to proceed: " ++
          String.intercalate ", " validation.missing ++ "."
        else validation.message.getD ""
      ({ message := aiMessage0 ++ "\n\n" ++ missingParamsList, action := none,
         success := true, error := none }, ctx, false)
    else
      let parameters := autoFillParams ctx commandName parameters
      let step := resolveProjectStep env commandName aiMessage0 parameters
      let aiMessage := step.1
      let parameters := step.2
      let ctx' := updateContextFromCommand env commandName parameters ctx now
      ({ message := aiMessage, action := some ⟨commandName, parameters⟩,
         success := true, error := none }, ctx', true)

/-! ## The session store and a full modeled chat turn -/

structure ChatRequest where
  message : String
  sessionId : Option String
deriving DecidableEq, Repr

/-- The `conversationContexts` map, as an association list with `Map`
get/set semantics. -/
abbrev ContextStore := List (String × SessionContext)

/-- Source `Map.get`. -/
def storeGet : ContextStore → String → Option SessionContext
  | [], _ => none
  | (a, c) :: t, k => if a = k then some c else storeGet t k

/-- Source `Map.set`. -/
def storeSet : ContextStore → String → SessionContext → ContextStore
  | [], k, v => [(k, v)]
  | (a, c) :: t, k, v =>
    if a = k then (k, v) :: t else (a, c) :: storeSet t k v

/-- Source `const sessionId = chatRequest.sessionId || 'default'` — an absent or
empty session id falls back to the shared key. -/
def sessionKeyOf (sid : Option String) : String :=
  match sid with
  | none => "default"
  | some s => if s = "" then "default" else s

/-- One modeled chat turn (ai-chat.service.ts:299-632): session lookup or
creation, heuristic context extraction from the user message, then
processing of the provider's reply `aiReply`.  `userId` is the
authenticated caller; note it plays no role in session keying.  Because
the service mutates the context object it got from the map in place, the
store always reflects the heuristic update, which the value model
realizes by writing the context back. -/
def chatTurn (env : ChatEnv) (userId : String) (req : ChatRequest) (aiReply : String)
    (store : ContextStore) (now : Nat) : ChatResponse × ContextStore :=
  let _ := userId
  let sessionId := sessionKeyOf req.sessionId
  let (ctx, store) :=
    match storeGet store sessionId with
    | some c => (c, store)
    | none =>
      let c : SessionContext := { lastUpdated := now }
      (c, storeSet store sessionId c)
  let extracted := extractContextFromMessage req.message ctx now
  let ctx := extracted.1
  let store := storeSet store sessionId ctx
  let processed := processAiMessage env aiReply ctx now
  let store := if processed.2.2 then storeSet store sessionId processed.2.1 else store
  (processed.1, store)

/-! ## The modeled command grammar

`commands.json` itself is not among the provided sources (only the
service that loads it), so the grammar used for concrete scenario runs
is reconstructed from the specification. -/

/-- Modelled from the spec: the Command Grammar (`commands.json`) is
missing from the sources; this list is rebuilt from the spec's command
examples — navigation examples in 4.3, the creation/edit examples, and
the scenarios of section 8 (`createWorkspace` requires both name and
description, `createTask` requires workspace, project and title, and
"list projects" uses the current workspace context, so its workspace
parameter carries the optional `?` suffix). -/
def specCommands : List Command :=
  [⟨"navigateToWorkspace", ["workspaceSlug"]⟩,
   ⟨"navigateToProject", ["workspaceSlug", "projectSlug"]⟩,
   ⟨"listWorkspaces", []⟩,
   ⟨"listProjects", ["workspaceSlug?"]⟩,
   ⟨"createWorkspace", ["name", "description"]⟩,
   ⟨"createProject", ["workspaceSlug", "name"]⟩,
   ⟨"createTask", ["workspaceSlug", "projectSlug", "taskTitle"]⟩,
   ⟨"editWorkspace", ["workspaceSlug", "updates"]⟩]

/-- The required (non-`?`) parameters of a command, per the validator's
own computation. -/
def requiredOf (commands : List Command) (name : String) : List String :=
  match commands.find? (fun cmd => cmd.name = name) with
  | some cmd => cmd.params.filter (fun p => !strEnds p "?")
  | none => []

/-- A concrete environment whose slug resolution reports `not_found`. -/
def specEnvNotFound : ChatEnv :=
  { commands := specCommands,
    validateProjectSlug := fun _ => ⟨.not_found, ""⟩,
    getIdBySlug := fun _ => none,
    getAllSlugsByWorkspaceId := fun _ => [] }

/-! # Helper lemmas -/

theorem jsGet_jsSet (ps : List (String × JsonVal)) (k : String) (v : JsonVal)
    (q : String) : jsGet (jsSet ps k v) q = if q = k then some v else jsGet ps q := by
  induction ps with
  | nil =>
    by_cases hqk : q = k
    · simp [jsSet, jsGet, hqk]
    · simp [jsSet, jsGet, hqk, Ne.symm hqk]
  | cons a t ih =>
    obtain ⟨x, y⟩ := a
    by_cases hxk : x = k
    · subst hxk
      by_cases hqk : q = x
      · simp [jsSet, jsGet, hqk]
      · simp [jsSet, jsGet, hqk, Ne.symm hqk]
    · by_cases hxq : x = q
      · have hqk : ¬(q = k) := fun h => hxk (hxq.symm ▸ h)
        simp [jsSet, jsGet, hxk, hxq, hqk]
      · simp [jsSet, jsGet, hxk, hxq, ih]

/-- Source `paramMissing` after a JS property write. -/
theorem paramMissing_jsSet (ps : List (String × JsonVal)) (k : String) (v : JsonVal)
    (p : String) :
    paramMissing (jsSet ps k v) p =
      if p = k then (!jsTruthyV v || jsTrim (jsStringOfV v) = "")
      else paramMissing ps p := by
  by_cases hpk : p = k <;>
    simp [paramMissing, jsGet_jsSet, hpk, jsTruthy, jsStringOf]

theorem validate_found (commands : List Command) (commandName : String)
    (ps : List (String × JsonVal)) (cmd : Command)
    (h : commands.find? (fun c => c.name = commandName) = some cmd) :
    ((validateCommandParameters commands commandName ps).valid = true ↔
      ∀ p ∈ cmd.params.filter (fun q => !strEnds q "?"), paramMissing ps p = false) ∧
    (validateCommandParameters commands commandName ps).missing =
      (cmd.params.filter (fun q => !strEnds q "?")).filter (paramMissing ps) := by
  simp only [validateCommandParameters, h]
  by_cases hm : ((cmd.params.filter (fun q => !strEnds q "?")).filter (paramMissing ps)).length > 0
  · rw [if_pos hm]
    refine ⟨⟨fun hfalse => absurd hfalse (by simp), fun hall => ?_⟩, rfl⟩
    exfalso
    have hnil : (cmd.params.filter (fun q => !strEnds q "?")).filter (paramMissing ps) = [] := by
      rw [List.filter_eq_nil_iff]
      intro a ha
      simp [hall a ha]
    rw [hnil] at hm
    simp at hm
  · have hnil : (cmd.params.filter (fun q => !strEnds q "?")).filter (paramMissing ps) = [] :=
      List.length_eq_zero.mp (Nat.eq_zero_of_not_pos hm)
    rw [if_neg hm]
    refine ⟨⟨fun _ p hp => ?_, fun _ => rfl⟩, hnil.symm⟩
    have := List.filter_eq_nil_iff.mp hnil p hp
    simpa using this

theorem validate_unknown (commands : List Command) (commandName : String)
    (ps : List (String × JsonVal))
    (h : commands.find? (fun c => c.name = commandName) = none) :
    validateCommandParameters commands commandName ps =
      ⟨false, [], some ("Unknown command: " ++ commandName)⟩ := by
  unfold validateCommandParameters
  rw [h]

/-! # Claim C4 — the parameter validator -/

/-- C4 (amended): for a command present in the grammar,
`validateCommandParameters` returns `valid = false` iff some required
(non-`?`-suffixed) parameter is missing under the validator's test —
absent, JS-falsy (`null`, `false`, `0`, `''`), or blank after trimming
its JS string form — and the missing-list is exactly the required
parameters failing that test; for a name not in the grammar it fails
with the unknown-command message and an empty missing-list.  (The
original claim's "absent or blank after trimming" misses the JS-falsy
values `0` and `false`.) -/
theorem validator_rejects_iff_required_missing (commands : List Command)
    (commandName : String) (parameters : List (String × JsonVal)) :
    (∀ cmd, commands.find? (fun c => c.name = commandName) = some cmd →
       (((validateCommandParameters commands commandName parameters).valid = false ↔
           ∃ p ∈ cmd.params.filter (fun q => !strEnds q "?"),
             paramMissing parameters p = true) ∧
        (validateCommandParameters commands commandName parameters).missing =
          (cmd.params.filter (fun q => !strEnds q "?")).filter (paramMissing parameters))) ∧
    (commands.find? (fun c => c.name = commandName) = none →
       validateCommandParameters commands commandName parameters =
         ⟨false, [], some ("Unknown command: " ++ commandName)⟩) := by
  refine ⟨fun cmd h => ?_, validate_unknown commands commandName parameters⟩
  obtain ⟨hiff, hmiss⟩ := validate_found commands commandName parameters cmd h
  refine ⟨?_, hmiss⟩
  constructor
  · intro hfalse
    by_contra hno
    push_neg at hno
    have hall : ∀ p ∈ cmd.params.filter (fun q => !strEnds q "?"),
        paramMissing parameters p = false := by
      intro p hp
      have := hno p hp
      simpa using this
    have := hiff.mpr hall
    rw [this] at hfalse
    exact absurd hfalse (by simp)
  · rintro ⟨p, hp, hmissp⟩
    cases hval : (validateCommandParameters commands commandName parameters).valid with
    | false => rfl
    | true =>
      have := hiff.mp hval p hp
      rw [hmissp] at this
      exact absurd this (by simp)

def c4params : List (String × JsonVal) :=
  [("workspaceSlug", .str "beta"), ("projectSlug", .str "alpha"), ("taskTitle", .num 0)]

/-- C4 counterexample: for `createTask`, the required `taskTitle` is
present with JSON value `0`, which after JS string conversion and
trimming is the non-blank `"0"`; yet the validator reports it missing
and rejects — refuting the claimed "valid=false iff some required
parameter is absent or blank after trimming". -/
theorem validator_rejects_present_nonblank_zero :
    validateCommandParameters specCommands "createTask" c4params =
      ⟨false, ["taskTitle"], some "Missing required parameters for createTask: taskTitle"⟩ ∧
    jsGet c4params "taskTitle" = some (.num 0) ∧
    jsTrim (jsStringOf (jsGet c4params "taskTitle")) = "0" :=
  ⟨rfl, rfl, rfl⟩

/-- Witness for the C4 theorem at `createTask` with the `0`-valued
parameter set. -/
theorem validator_rejects_iff_required_missing_witness :
    ((validateCommandParameters specCommands "createTask" c4params).valid = false ↔
       ∃ p ∈ (Command.mk "createTask" ["workspaceSlug", "projectSlug", "taskTitle"]).params.filter
           (fun q => !strEnds q "?"),
         paramMissing c4params p = true) ∧
    (validateCommandParameters specCommands "createTask" c4params).missing =
      ((Command.mk "createTask" ["workspaceSlug", "projectSlug", "taskTitle"]).params.filter
          (fun q => !strEnds q "?")).filter (paramMissing c4params) :=
  (validator_rejects_iff_required_missing specCommands "createTask" c4params).1
    ⟨"createTask", ["workspaceSlug", "projectSlug", "taskTitle"]⟩ rfl

/-! # Claim C5 — the brace-repair round trip -/

theorem braceFold_shift (l : List Char) (acc : Int) :
    l.foldl (fun a c => if c = '{' then a + 1 else if c = '}' then a - 1 else a) acc =
      acc + l.foldl (fun a c => if c = '{' then a + 1 else if c = '}' then a - 1 else a) 0 := by
  induction l generalizing acc with
  | nil => simp
  | cons c t ih =>
    simp only [List.foldl]
    rw [ih, ih (if c = '{' then (0 : Int) + 1 else if c = '}' then 0 - 1 else 0)]
    by_cases h1 : c = '{' <;> by_cases h2 : c = '}' <;> simp [h1, h2] <;> ring

theorem braceDelta_append (s u : String) :
    braceDelta (s ++ u) = braceDelta s + braceDelta u := by
  unfold braceDelta
  rw [String.data_append, List.foldl_append, braceFold_shift]

theorem braceDelta_closes (N : Nat) :
    braceDelta (String.mk (List.replicate N '}')) = -(N : Int) := by
  unfold braceDelta
  induction N with
  | zero => simp
  | succ n ih =>
    simp only [List.replicate_succ]
    show List.foldl _ _ ('}' :: List.replicate n '}') = _
    simp only [List.foldl]
    rw [braceFold_shift]
    simp only at ih
    rw [ih]
    simp

/-- C5 (amended): when the payload's brace count (over all characters,
including those inside string literals) is balanced and exactly `N`
trailing `'}'` characters are removed, the repair pass appends exactly
`N` closing braces, restoring the original payload verbatim, which
therefore parses to the same object.  (The unrestricted claim fails when
a string literal contains an unmatched brace — see the counterexample.) -/
theorem brace_repair_roundtrip (t : String) (N : Nat) (v : JsonVal)
    (hparse : jsonParse (t ++ String.mk (List.replicate N '}')) = some v)
    (hbal : braceDelta (t ++ String.mk (List.replicate N '}')) = 0) :
    repairJson t = t ++ String.mk (List.replicate N '}') ∧
    jsonParse (repairJson t) = some v := by
  have hdt : braceDelta t = (N : Int) := by
    rw [braceDelta_append, braceDelta_closes] at hbal
    omega
  have hrep : repairJson t = t ++ String.mk (List.replicate N '}') := by
    unfold repairJson
    rw [hdt]
    simp
  exact ⟨hrep, hrep ▸ hparse⟩

/-- C5 counterexample: the well-formed payload `{"a":"}"}` (a string
literal containing `}`) with its final closing brace removed: the brace
count of the truncation is already balanced, so the repair appends
nothing — one brace short — and the repaired payload does not parse at
all, let alone to the original object. -/
theorem brace_repair_counterexample :
    jsonParse "\x7b\"a\":\"\x7d\"\x7d" = some (.obj [("a", .str "\x7d")]) ∧
    ("\x7b\"a\":\"\x7d\"" ++ "\x7d" : String) = "\x7b\"a\":\"\x7d\"\x7d" ∧
    repairJson "\x7b\"a\":\"\x7d\"" = "\x7b\"a\":\"\x7d\"" ∧
    jsonParse (repairJson "\x7b\"a\":\"\x7d\"") = none :=
  ⟨rfl, rfl, rfl, rfl⟩

/-- Witness for the C5 theorem: `{"a":1}` with its single closing brace
removed is repaired back to the original and re-parses to the same
object. -/
theorem brace_repair_roundtrip_witness :
    repairJson "\x7b\"a\":1" = "\x7b\"a\":1" ++ String.mk (List.replicate 1 '}') ∧
    jsonParse (repairJson "\x7b\"a\":1") = some (.obj [("a", .num 1)]) :=
  brace_repair_roundtrip "\x7b\"a\":1" 1 (.obj [("a", .num 1)]) rfl (by decide)

/-! # Claim C1 — the URL/SSRF guard -/

/-- C1: every URL accepted by `validateApiUrl` parses, has the `https`
scheme, effective port 443, a hostname in the allow-set of provider
hosts/patterns, and a hostname that is not a loopback, link-local or
private-range address; consequently a URL violating any of these is
rejected before any network call — in particular `http://api.openai.com`
is rejected for its insecure scheme although the host is allowed. -/
theorem validateApiUrl_some (u : String) (p : UrlParts) (hp : parseUrl u = some p) :
    validateApiUrl u =
      (if p.protocol ≠ "https:" then .error "Only HTTPS URLs allowed"
       else if !hostAllowed (canonHost p) then .error "Host not allowed"
       else if isInternalHost (canonHost p) then .error "Internal IPs not allowed"
       else if p.port.getD 443 ≠ 443 then .error "Only standard HTTPS port 443 is allowed"
       else if !supportedProvider (canonHost p) then .error "Unsupported AI provider host"
       else .ok (stripTrailingSlash (urlToString p))) := by
  unfold validateApiUrl
  rw [hp]

theorem url_guard_accepts_only_secure_allowed :
    (∀ u c, validateApiUrl u = .ok c →
       ∃ p, parseUrl u = some p ∧ p.protocol = "https:" ∧ p.port.getD 443 = 443 ∧
         hostAllowed (canonHost p) = true ∧ isInternalHost (canonHost p) = false) ∧
    (∀ u p, parseUrl u = some p →
       (p.protocol ≠ "https:" ∨ p.port.getD 443 ≠ 443 ∨
        hostAllowed (canonHost p) = false ∨ isInternalHost (canonHost p) = true) →
       ∀ c, validateApiUrl u ≠ .ok c) ∧
    validateApiUrl "http://api.openai.com" = .error "Only HTTPS URLs allowed" := by
  have fwd : ∀ u c, validateApiUrl u = .ok c →
      ∃ p, parseUrl u = some p ∧ p.protocol = "https:" ∧ p.port.getD 443 = 443 ∧
        hostAllowed (canonHost p) = true ∧ isInternalHost (canonHost p) = false := by
    intro u c h
    cases hp : parseUrl u with
    | none => unfold validateApiUrl at h; rw [hp] at h; exact absurd h (by simp)
    | some p =>
      rw [validateApiUrl_some u p hp] at h
      refine ⟨p, rfl, ?_⟩
      split_ifs at h with h1 h2 h3 h4 h5
      push_neg at h1
      refine ⟨h1, by omega, ?_, ?_⟩
      · simpa using h2
      · simpa using h3
  refine ⟨fwd, ?_, rfl⟩
  intro u p hp hviol c hok
  obtain ⟨p', hp', hproto, hport, hallow, hint⟩ := fwd u c hok
  rw [hp] at hp'
  cases hp'
  rcases hviol with h | h | h | h
  · exact h hproto
  · exact h hport
  · rw [hallow] at h; exact absurd h (by simp)
  · rw [hint] at h; exact absurd h (by simp)

/-- Witness for the C1 theorem at the accepted URL
`https://api.openai.com/v1`. -/
theorem url_guard_accepts_only_secure_allowed_witness :
    validateApiUrl "https://api.openai.com/v1" = .ok "https://api.openai.com/v1" ∧
    (∃ p, parseUrl "https://api.openai.com/v1" = some p ∧ p.protocol = "https:" ∧
       p.port.getD 443 = 443 ∧ hostAllowed (canonHost p) = true ∧
       isInternalHost (canonHost p) = false) :=
  ⟨rfl, url_guard_accepts_only_secure_allowed.1 "https://api.openai.com/v1"
    "https://api.openai.com/v1" rfl⟩

/-! # Claim C10 — the Gemini default endpoint is unreachable -/

/-- C10: `generativelanguage.googleapis.com` is in `allowedHosts` and
`detectProvider` classifies it as `google`, yet `googlePattern` does not
match it (it matches `aiplatform.googleapis.com`, its regional
prefixes, and `*.p.googleapis.com` hosts), so the final
supported-provider check of `validateApiUrl` rejects every URL with that
hostname, throwing `Unsupported AI provider host` for the ones that pass
the earlier checks. -/
theorem gemini_host_always_rejected :
    ("generativelanguage.googleapis.com" ∈ allowedHosts) ∧
    detectProvider "https://generativelanguage.googleapis.com" = "google" ∧
    reTest0 googlePattern "generativelanguage.googleapis.com" = false ∧
    reTest0 googlePattern "aiplatform.googleapis.com" = true ∧
    reTest0 googlePattern "eu.aiplatform.googleapis.com" = true ∧
    reTest0 googlePattern "myendpoint.p.googleapis.com" = true ∧
    validateApiUrl "https://generativelanguage.googleapis.com" =
      .error "Unsupported AI provider host" ∧
    (∀ u p, parseUrl u = some p →
       canonHost p = "generativelanguage.googleapis.com" →
       ∀ c, validateApiUrl u ≠ .ok c) := by
  refine ⟨by decide, rfl, rfl, rfl, rfl, rfl, rfl, ?_⟩
  intro u p hp hhost c h
  rw [validateApiUrl_some u p hp] at h
  split_ifs at h with h1 h2 h3 h4 h5
  rw [hhost] at h5
  exact absurd (by simpa using h5 : supportedProvider "generativelanguage.googleapis.com" = true)
    (by decide)

/-- Witness for the C10 theorem at the default public Gemini endpoint
with a path. -/
theorem gemini_host_always_rejected_witness :
    validateApiUrl "https://generativelanguage.googleapis.com/v1beta" ≠
      .ok "https://generativelanguage.googleapis.com/v1beta" :=
  gemini_host_always_rejected.2.2.2.2.2.2.2
    "https://generativelanguage.googleapis.com/v1beta"
    ⟨"https:", "generativelanguage.googleapis.com", none, "/v1beta"⟩ rfl rfl
    "https://generativelanguage.googleapis.com/v1beta"

/-! # Claim C8 — a parse failure is soft -/

/-- C8: when a command pattern matched the assistant reply but the
payload is malformed even after the brace-repair pass, the chat turn
drops the action yet still returns the assistant's plain-text reply with
`success = true` and no error, leaving the session context untouched. -/
theorem parse_error_is_soft (env : ChatEnv) (aiMessage : String) (ctx : SessionContext)
    (now : Nat) (n ps : String)
    (hx : extractCommand aiMessage = some (n, ps))
    (hp1 : jsonParse (if ps = "" then "\x7b\x7d" else ps) = none)
    (hp2 : jsonParse (repairJson (if ps = "" then "\x7b\x7d" else ps)) = none) :
    processAiMessage env aiMessage ctx now =
      ({ message := aiMessage, action := none, success := true, error := none }, ctx, false) := by
  have hpc : parsedCommandOf aiMessage = none := by
    unfold parsedCommandOf
    rw [hx]
    simp only [hp1, hp2]
  unfold processAiMessage
  rw [hpc]

def c8reply : String := "Done! [COMMAND: createTask] \x7b\"a\" \x7d"

/-- Witness for the C8 theorem: a payload that is invalid JSON and
already brace-balanced, so the repair cannot fix it. -/
theorem parse_error_is_soft_witness :
    processAiMessage specEnvNotFound c8reply {} 5 =
      ({ message := c8reply, action := none, success := true, error := none },
       ({} : SessionContext), false) :=
  parse_error_is_soft specEnvNotFound c8reply {} 5 "createTask" "\x7b\"a\" \x7d" rfl rfl rfl

/-! # Claim C2 — required parameters of a returned action -/

/-- Auto-fill step shape: a guarded property write whose guard entails
that the key was not truthy beforehand preserves the non-missing status
of every parameter. -/
theorem paramMissing_fillStep (ps : List (String × JsonVal)) (key w p : String)
    (guard : Bool) (hguard : guard = true → (!jsTruthy (jsGet ps key)) = true)
    (hm : paramMissing ps p = false) :
    paramMissing (if guard then jsSet ps key (.str w) else ps) p = false := by
  cases hg : guard with
  | false => simpa [hg] using hm
  | true =>
    rw [if_pos rfl]
    by_cases hpk : p = key
    · exfalso
      subst hpk
      have htr : jsTruthy (jsGet ps p) = false := by simpa using hguard hg
      unfold paramMissing at hm
      rw [htr] at hm
      simp at hm
    · rw [paramMissing_jsSet, if_neg hpk]
      exact hm

/-- Second conjunct of a four-way `&&` chain. -/
theorem and_chain_second (A B C D : Bool) (hc : (A && B && C && D) = true) :
    B = true := by
  cases hB : B with
  | true => rfl
  | false => rw [hB] at hc; simp at hc

/-- Third conjunct of a four-way `&&` chain. -/
theorem and_chain_third (A B C D : Bool) (hc : (A && B && C && D) = true) :
    C = true := by
  cases hC : C with
  | true => rfl
  | false => rw [hC] at hc; simp at hc

/-- The auto-fill pass never makes a previously non-missing parameter
missing. -/
theorem paramMissing_autofill (ctx : SessionContext) (cn : String)
    (ps : List (String × JsonVal)) (p : String)
    (hm : paramMissing ps p = false) :
    paramMissing (autoFillParams ctx cn ps) p = false := by
  have hws : paramMissing (autoFillWs ctx cn ps) p = false := by
    unfold autoFillWs
    refine paramMissing_fillStep _ "workspaceSlug" _ p _ ?_ hm
    intro hc
    exact and_chain_third _ _ _ _ hc
  unfold autoFillParams
  refine paramMissing_fillStep _ "projectSlug" _ p _ ?_ hws
  intro hc
  exact and_chain_second _ _ _ _ hc

/-- The slug-resolution step only rewrites `projectSlug`, and only for
`navigateToProject`. -/
theorem paramMissing_resolveStep (env : ChatEnv) (cn aiMessage0 : String)
    (ps : List (String × JsonVal)) (p : String)
    (hm : paramMissing ps p = false) :
    paramMissing (resolveProjectStep env cn aiMessage0 ps).2 p = false ∨
      (cn = "navigateToProject" ∧ p = "projectSlug") := by
  by_cases hcn : cn = "navigateToProject"
  · by_cases hpp : p = "projectSlug"
    · exact Or.inr ⟨hcn, hpp⟩
    · left
      unfold resolveProjectStep
      rw [if_pos hcn]
      cases hst : (env.validateProjectSlug (jsGet ps "projectSlug")).status <;>
        simp [hst, paramMissing_jsSet, hpp, hm]
  · left
    unfold resolveProjectStep
    rw [if_neg hcn]
    exact hm

/-- C2 (amended): a returned action names a command of the grammar and
was produced only after validation succeeded, and every required
parameter of that command is present and non-blank in the action —
except that on the `navigateToProject` path the `projectSlug` field is
rewritten after validation by slug resolution (cleared to blank when the
resolution reports not-found), so that one field may be returned blank. -/
theorem action_required_params_present (env : ChatEnv) (aiMessage : String)
    (ctx : SessionContext) (now : Nat) (name : String)
    (params : List (String × JsonVal))
    (hact : (processAiMessage env aiMessage ctx now).1.action = some ⟨name, params⟩) :
    (∃ cmd ∈ env.commands, cmd.name = name) ∧
    (∀ p ∈ requiredOf env.commands name,
       paramMissing params p = false ∨ (name = "navigateToProject" ∧ p = "projectSlug")) := by
  cases hpc : parsedCommandOf aiMessage with
  | none =>
    simp only [processAiMessage, hpc] at hact
    exact absurd hact (by simp)
  | some np =>
    obtain ⟨cn, ps0⟩ := np
    simp only [processAiMessage, hpc] at hact
    by_cases hv : (validateCommandParameters env.commands cn ps0).valid = true
    · rw [if_neg (by simp [hv])] at hact
      simp only [Option.some.injEq, ChatAction.mk.injEq] at hact
      obtain ⟨hname, hparams⟩ := hact
      subst hname
      cases hfind : env.commands.find? (fun c => c.name = cn) with
      | none =>
        rw [validate_unknown env.commands cn ps0 hfind] at hv
        exact absurd hv (by simp)
      | some cmd =>
        have hmem : cmd ∈ env.commands := List.mem_of_find?_eq_some hfind
        have hname' : cmd.name = cn := by
          have := List.find?_some hfind
          simpa using this
        refine ⟨⟨cmd, hmem, hname'⟩, ?_⟩
        intro p hp
        have hreq : p ∈ cmd.params.filter (fun q => !strEnds q "?") := by
          unfold requiredOf at hp
          rw [hfind] at hp
          exact hp
        have hm0 : paramMissing ps0 p = false :=
          (validate_found env.commands cn ps0 cmd hfind).1.mp hv p hreq
        have hm1 : paramMissing (autoFillParams ctx cn ps0) p = false :=
          paramMissing_autofill ctx cn ps0 p hm0
        have := paramMissing_resolveStep env cn aiMessage (autoFillParams ctx cn ps0) p hm1
        rw [hparams] at this
        exact this
    · rw [if_pos (by simp [hv])] at hact
      exact absurd hact (by simp)

def c2reply : String :=
  "Taking you there. [COMMAND: navigateToProject] \x7b\"workspaceSlug\": \"w\", \"projectSlug\": \"x\"\x7d"

/-- C2 counterexample: with slug resolution reporting not-found, the
chat turn still returns a `navigateToProject` action whose required
`projectSlug` has been cleared to the blank string after validation —
refuting "never returned to the caller with a missing or blank required
parameter". -/
theorem action_with_blank_required_projectSlug :
    (processAiMessage specEnvNotFound c2reply {} 5).1.action =
      some ⟨"navigateToProject",
            [("workspaceSlug", .str "w"), ("projectSlug", .str "")]⟩ ∧
    "projectSlug" ∈ requiredOf specCommands "navigateToProject" ∧
    paramMissing [("workspaceSlug", JsonVal.str "w"), ("projectSlug", JsonVal.str "")]
      "projectSlug" = true ∧
    (processAiMessage specEnvNotFound c2reply {} 5).1.success = true :=
  ⟨rfl, by decide, rfl, rfl⟩

/-- Witness for the C2 theorem at the not-found scenario. -/
theorem action_required_params_present_witness :
    (∃ cmd ∈ specEnvNotFound.commands, cmd.name = "navigateToProject") ∧
    (∀ p ∈ requiredOf specEnvNotFound.commands "navigateToProject",
       paramMissing [("workspaceSlug", JsonVal.str "w"), ("projectSlug", JsonVal.str "")] p = false ∨
       ("navigateToProject" = "navigateToProject" ∧ p = "projectSlug")) :=
  action_required_params_present specEnvNotFound c2reply {} 5 "navigateToProject"
    [("workspaceSlug", .str "w"), ("projectSlug", .str "")] rfl

/-! # Claim C3 — auto-fill happens after the required-parameter check -/

/-- C3 (amended): validation runs on the parameters as parsed, before
any auto-fill, so session context cannot satisfy a missing required
parameter — a failing validation yields no action for every session
context; when validation passes, auto-fill sets a missing/falsy
`workspaceSlug` from the context (for commands other than
`listWorkspaces`/`createWorkspace`), an explicitly supplied non-empty
`workspaceSlug` is never overwritten, and the returned action (for
non-`navigateToProject` commands) carries exactly the auto-filled
parameters. -/
theorem autofill_after_validation :
    (∀ env aiMessage (ctx : SessionContext) now name params,
       parsedCommandOf aiMessage = some (name, params) →
       (validateCommandParameters (ChatEnv.commands env) name params).valid = false →
       (processAiMessage env aiMessage ctx now).1.action = none) ∧
    (∀ (ctx : SessionContext) name params,
       (name ≠ "listWorkspaces" && name ≠ "createWorkspace" &&
        !jsTruthy (jsGet params "workspaceSlug") && optStrTruthy ctx.workspaceSlug) = true →
       jsGet (autoFillParams ctx name params) "workspaceSlug" =
         some (.str (ctx.workspaceSlug.getD ""))) ∧
    (∀ (ctx : SessionContext) name params w2,
       jsGet params "workspaceSlug" = some (.str w2) → w2 ≠ "" →
       jsGet (autoFillParams ctx name params) "workspaceSlug" = some (.str w2)) ∧
    (∀ env aiMessage (ctx : SessionContext) now name params,
       parsedCommandOf aiMessage = some (name, params) →
       (validateCommandParameters (ChatEnv.commands env) name params).valid = true →
       name ≠ "navigateToProject" →
       (processAiMessage env aiMessage ctx now).1.action =
         some ⟨name, autoFillParams ctx name params⟩) := by
  refine ⟨?_, ?_, ?_, ?_⟩
  · intro env aiMessage ctx now name params hpc hv
    simp only [processAiMessage, hpc]
    rw [if_pos (by simp [hv])]
  · intro ctx name params hc
    have hws : jsGet (autoFillWs ctx name params) "workspaceSlug" =
        some (.str (ctx.workspaceSlug.getD "")) := by
      unfold autoFillWs
      rw [if_pos hc, jsGet_jsSet]
      simp
    unfold autoFillParams
    split_ifs with h2
    · rw [jsGet_jsSet, if_neg (by decide)]
      exact hws
    · exact hws
  · intro ctx name params w2 hw hne
    have hws : jsGet (autoFillWs ctx name params) "workspaceSlug" = some (.str w2) := by
      unfold autoFillWs
      have hcond1 : (name ≠ "listWorkspaces" && name ≠ "createWorkspace" &&
          !jsTruthy (jsGet params "workspaceSlug") && optStrTruthy ctx.workspaceSlug) = false := by
        rw [hw]
        simp [jsTruthy, jsTruthyV, hne]
      rw [hcond1]
      simpa using hw
    unfold autoFillParams
    split_ifs with h2
    · rw [jsGet_jsSet, if_neg (by decide)]
      exact hws
    · exact hws
  · intro env aiMessage ctx now name params hpc hv hnn
    simp only [processAiMessage, hpc]
    rw [if_neg (by simp [hv])]
    simp only [Option.some.injEq, ChatAction.mk.injEq]
    unfold resolveProjectStep
    rw [if_neg hnn]
    exact ⟨trivial, rfl⟩

def w1ctx : SessionContext := { workspaceSlug := some "w1", workspaceName := some "W1" }

def c3reply : String := "Creating. [COMMAND: createTask] \x7b\"projectSlug\": \"p\", \"taskTitle\": \"t\"\x7d"

/-- C3 counterexample: session context holds workspace `w1` and the
command requires `workspaceSlug` with none supplied; the claim promises
a resolved action with `workspaceSlug = "w1"`, but validation runs
first, fails, and the turn returns no action at all, only a clarifying
message. -/
theorem context_does_not_satisfy_required :
    (processAiMessage specEnvNotFound c3reply w1ctx 5).1.action = none ∧
    (processAiMessage specEnvNotFound c3reply w1ctx 5).1.message =
      c3reply ++ "\n\nI need the following information to proceed: workspaceSlug." ∧
    "workspaceSlug" ∈ requiredOf specCommands "createTask" ∧
    optStrTruthy w1ctx.workspaceSlug = true :=
  ⟨rfl, rfl, by decide, rfl⟩

/-- Witness for the C3 theorem: the failing-validation branch at the
`createTask` scenario and the successful auto-fill at a `listProjects`
command with empty parameters. -/
theorem autofill_after_validation_witness :
    (processAiMessage specEnvNotFound c3reply w1ctx 5).1.action = none ∧
    jsGet (autoFillParams w1ctx "listProjects" []) "workspaceSlug" = some (.str "w1") ∧
    jsGet (autoFillParams w1ctx "listProjects" [("workspaceSlug", .str "w2")])
      "workspaceSlug" = some (.str "w2") :=
  ⟨autofill_after_validation.1 specEnvNotFound c3reply w1ctx 5 "createTask"
     [("projectSlug", .str "p"), ("taskTitle", .str "t")] rfl rfl,
   autofill_after_validation.2.1 w1ctx "listProjects" [] (by decide),
   autofill_after_validation.2.2.1 w1ctx "listProjects" [("workspaceSlug", .str "w2")]
     "w2" rfl (by decide)⟩

/-! # Claim C9 — sessionId-less conversations share one context -/

def c9reply1 : String := "[COMMAND: navigateToWorkspace] \x7b\"workspaceSlug\": \"w1\"\x7d"

def c9reply2 : String := "[COMMAND: listProjects] \x7b\x7d"

/-- C9: a chat request that omits `sessionId` (or supplies the empty
string) is keyed to the single id `"default"` in the conversation-context
store — the user id plays no part in the key — so a whole turn behaves
exactly as with `sessionId = none`; concretely, after user `alice`'s
sessionId-less turn navigates to workspace `w1`, user `bob`'s
sessionId-less turn reads the very same stored context and auto-fills
`workspaceSlug = "w1"` into its action. -/
theorem default_session_shared :
    (∀ sid, (sid = none ∨ sid = some "") → sessionKeyOf sid = "default") ∧
    (∀ env u (m : String) sid aiReply store now, (sid = none ∨ sid = some "") →
       chatTurn env u ⟨m, sid⟩ aiReply store now =
         chatTurn env u ⟨m, none⟩ aiReply store now) ∧
    storeGet (chatTurn specEnvNotFound "alice" ⟨"hello", none⟩ c9reply1 [] 1).2 "default" =
      some { workspaceSlug := some "w1", workspaceName := some "w1", lastUpdated := 1,
             currentWorkSpaceProjectSlug := some [] } ∧
    ((chatTurn specEnvNotFound "bob" ⟨"list them", some ""⟩ c9reply2
        (chatTurn specEnvNotFound "alice" ⟨"hello", none⟩ c9reply1 [] 1).2 2).1.action.map
      (fun a => jsGet a.parameters "workspaceSlug")) = some (some (.str "w1")) := by
  refine ⟨?_, ?_, rfl, rfl⟩
  · rintro sid (rfl | rfl) <;> rfl
  · rintro env u m sid aiReply store now (rfl | rfl) <;> rfl

/-- Witness for the C9 theorem: the empty-string session id and the
absent one run identically on a concrete turn. -/
theorem default_session_shared_witness :
    sessionKeyOf (some "") = "default" ∧
    chatTurn specEnvNotFound "bob" ⟨"list them", some ""⟩ c9reply2 [] 2 =
      chatTurn specEnvNotFound "bob" ⟨"list them", none⟩ c9reply2 [] 2 :=
  ⟨default_session_shared.1 (some "") (Or.inr rfl),
   default_session_shared.2.1 specEnvNotFound "bob" "list them" (some "") c9reply2 [] 2
     (Or.inr rfl)⟩

/-! # Claim C6 — no truncation before command extraction -/

/-- None of the three command patterns can match at a position holding
the letter `a`, at any fuel. -/
theorem matRun_cmdPat1_at_a (fuel : Nat) (t : List Char) (caps : Caps) :
    matRun fuel [cmdPat1] ('a' :: t) caps = none := by
  match fuel with
  | 0 => rfl
  | 1 => rfl
  | _ + 2 => rfl

theorem matRun_cmdPat2_at_a (fuel : Nat) (t : List Char) (caps : Caps) :
    matRun fuel [cmdPat2] ('a' :: t) caps = none := by
  match fuel with
  | 0 => rfl
  | 1 => rfl
  | _ + 2 => rfl

theorem matRun_cmdPat3_at_a (fuel : Nat) (t : List Char) (caps : Caps) :
    matRun fuel [cmdPat3] ('a' :: t) caps = none := by
  match fuel with
  | 0 => rfl
  | 1 => rfl
  | _ + 2 => rfl

/-- Scanning skips over a prefix on which the pattern cannot match. -/
theorem firstMatchPos_skip (re : Re)
    (hfail : ∀ fuel t caps, matRun fuel [re] ('a' :: t) caps = none) (L : Nat)
    (rest : List Char) :
    firstMatchPos re (List.replicate L 'a' ++ rest) = firstMatchPos re rest := by
  induction L with
  | zero => rfl
  | succ n ih =>
    rw [List.replicate_succ, List.cons_append, firstMatchPos, hfail]
    exact ih

def cmdListWs : String := "[COMMAND: listWorkspaces] \x7b\x7d"

/-- For every bound `L`, the extractor finds a command lying wholly
beyond the first `L` characters of the reply, while the `L`-character
prefix alone yields nothing. -/
theorem extract_beyond_bound (L : Nat) :
    extractCommand (String.mk (List.replicate L 'a' ++ cmdListWs.data)) =
      some ("listWorkspaces", "\x7b\x7d") ∧
    extractCommand (String.mk (List.replicate L 'a')) = none := by
  constructor
  · show (match (firstMatchPos cmdPat1 (List.replicate L 'a' ++ cmdListWs.data)).map
        (fun r => r.1) with
      | some caps => some ((capStr caps 1).getD "", (capStr caps 2).getD "")
      | none =>
        match (firstMatchPos cmdPat2 (List.replicate L 'a' ++ cmdListWs.data)).map
            (fun r => r.1) with
        | some caps => some ((capStr caps 1).getD "", (capStr caps 2).getD "")
        | none =>
          match (firstMatchPos cmdPat3 (List.replicate L 'a' ++ cmdListWs.data)).map
              (fun r => r.1) with
          | some caps => some ((capStr caps 1).getD "", (capStr caps 2).getD "")
          | none => none) = some ("listWorkspaces", "\x7b\x7d")
    rw [firstMatchPos_skip cmdPat1 matRun_cmdPat1_at_a L,
        firstMatchPos_skip cmdPat2 matRun_cmdPat2_at_a L]
    rfl
  · show (match (firstMatchPos cmdPat1 (List.replicate L 'a')).map (fun r => r.1) with
      | some caps => some ((capStr caps 1).getD "", (capStr caps 2).getD "")
      | none =>
        match (firstMatchPos cmdPat2 (List.replicate L 'a')).map (fun r => r.1) with
        | some caps => some ((capStr caps 1).getD "", (capStr caps 2).getD "")
        | none =>
          match (firstMatchPos cmdPat3 (List.replicate L 'a')).map (fun r => r.1) with
          | some caps => some ((capStr caps 1).getD "", (capStr caps 2).getD "")
          | none => none) = none
    have hnil : ∀ re, (∀ fuel t caps, matRun fuel [re] ('a' :: t) caps = none) →
        firstMatchPos re (List.replicate L 'a') = firstMatchPos re [] := by
      intro re hfail
      have := firstMatchPos_skip re hfail L []
      simpa using this
    rw [hnil cmdPat1 matRun_cmdPat1_at_a, hnil cmdPat2 matRun_cmdPat2_at_a,
        hnil cmdPat3 matRun_cmdPat3_at_a]
    rfl

theorem truncateMsg_idem (m : String) : truncateMsg (truncateMsg m) = truncateMsg m := by
  unfold truncateMsg
  by_cases h : m.data.length > MAX_MESSAGE_LENGTH
  · rw [if_pos h]
    have hlen : (String.mk (m.data.take MAX_MESSAGE_LENGTH)).data.length =
        MAX_MESSAGE_LENGTH := by
      show (m.data.take MAX_MESSAGE_LENGTH).length = MAX_MESSAGE_LENGTH
      rw [List.length_take]
      omega
    rw [if_neg (by omega)]
  · rw [if_neg h, if_neg h]

/-- C6 (amended/corrected): the assistant reply is NOT truncated before
the command-extraction patterns run — for every bound `L` there is a
reply whose extracted command lies wholly beyond the first `L`
characters, so the extractor's result does not depend only on any
bounded-length prefix; the fixed `MAX_MESSAGE_LENGTH` truncation exists
only in the heuristic context extraction over the user message. -/
theorem extraction_not_truncated :
    (∀ L, extractCommand (String.mk (List.replicate L 'a' ++ cmdListWs.data)) =
            some ("listWorkspaces", "\x7b\x7d") ∧
          extractCommand (String.mk (List.replicate L 'a')) = none ∧
          (List.replicate L 'a' ++ cmdListWs.data).take L = List.replicate L 'a') ∧
    (∀ message ctx now, extractContextFromMessage message ctx now =
       extractContextFromMessage (truncateMsg message) ctx now) := by
  constructor
  · intro L
    refine ⟨(extract_beyond_bound L).1, (extract_beyond_bound L).2, ?_⟩
    have := List.take_left (List.replicate L 'a') cmdListWs.data
    rwa [List.length_replicate] at this
  · intro message ctx now
    unfold extractContextFromMessage
    rw [truncateMsg_idem]

/-- C6 counterexample: at the code's one fixed bound (10000), the
extractor's result on a reply differs from its result on the
10000-character prefix of that reply — the prefix yields no command
while the whole reply yields one, refuting "the result depends only on
that bounded-length prefix". -/
theorem extraction_sees_beyond_10000 :
    extractCommand
        (String.mk (List.replicate MAX_MESSAGE_LENGTH 'a' ++ cmdListWs.data)) =
      some ("listWorkspaces", "\x7b\x7d") ∧
    (List.replicate MAX_MESSAGE_LENGTH 'a' ++ cmdListWs.data).take MAX_MESSAGE_LENGTH =
      List.replicate MAX_MESSAGE_LENGTH 'a' ∧
    extractCommand (String.mk (List.replicate MAX_MESSAGE_LENGTH 'a')) = none := by
  obtain ⟨h1, h2⟩ := extract_beyond_bound MAX_MESSAGE_LENGTH
  refine ⟨h1, ?_, h2⟩
  have := List.take_left (List.replicate MAX_MESSAGE_LENGTH 'a') cmdListWs.data
  rwa [List.length_replicate] at this

/-- Witness for the C6 theorem at `L = 3`. -/
theorem extraction_not_truncated_witness :
    extractCommand (String.mk (List.replicate 3 'a' ++ cmdListWs.data)) =
      some ("listWorkspaces", "\x7b\x7d") ∧
    extractCommand (String.mk (List.replicate 3 'a')) = none :=
  ⟨(extraction_not_truncated.1 3).1, (extraction_not_truncated.1 3).2.1⟩

/-! # Claim C7 — switching workspace versus project fields -/

/-- Some workspace pattern fires on the message (sets `workspaceName`). -/
def wsAnyFired (safeMessage : String) : Bool :=
  workspacePatterns.any (fun pat => (firstTruthyCap (reAll pat safeMessage)).isSome)

/-- Some project pattern accepts a name on the message. -/
def prAnyFired (safeMessage : String) : Bool :=
  projectPatterns.any (fun pat => (firstAcceptedProject (reAll pat safeMessage)).isSome)

/-- Under a message without the `project` substring, the workspace fold
leaves the project fields `none` whenever a pattern has fired (now or
before). -/
theorem wsfold_clears (lowerMessage safeMessage : String)
    (hni : strIncludes lowerMessage "project" = false) :
    ∀ (pats : List Re) (st : SessionContext × Bool),
      (pats.any (fun pat => (firstTruthyCap (reAll pat safeMessage)).isSome) = true ∨
       (st.1.projectSlug = none ∧ st.1.projectName = none)) →
      ((pats.foldl (applyWsPattern lowerMessage safeMessage) st).1.projectSlug = none ∧
       (pats.foldl (applyWsPattern lowerMessage safeMessage) st).1.projectName = none) := by
  intro pats
  induction pats with
  | nil =>
    intro st h
    rcases h with h | h
    · simp at h
    · exact h
  | cons pat rest ih =>
    intro st h
    rw [List.foldl_cons]
    cases hfire : firstTruthyCap (reAll pat safeMessage) with
    | some c =>
      apply ih
      right
      unfold applyWsPattern
      rw [hfire]
      simp [hni]
    | none =>
      have hid : applyWsPattern lowerMessage safeMessage st pat = st := by
        unfold applyWsPattern
        rw [hfire]
      rw [hid]
      apply ih
      rcases h with h | h
      · left
        simp only [List.any_cons, Bool.or_eq_true] at h
        rcases h with h | h
        · rw [hfire] at h
          simp at h
        · exact h
      · right
        exact h

/-- When no project pattern accepts, the project fold is the identity. -/
theorem prfold_id (safeMessage : String) :
    ∀ (pats : List Re) (st : SessionContext × Bool),
      pats.all (fun pat => (firstAcceptedProject (reAll pat safeMessage)).isNone) = true →
      pats.foldl (applyProjectPattern safeMessage) st = st := by
  intro pats
  induction pats with
  | nil => intro st _; rfl
  | cons pat rest ih =>
    intro st h
    simp only [List.all_cons, Bool.and_eq_true] at h
    rw [List.foldl_cons]
    have hid : applyProjectPattern safeMessage st pat = st := by
      unfold applyProjectPattern
      cases hfa : firstAcceptedProject (reAll pat safeMessage) with
      | none => rfl
      | some c => rw [hfa] at h; simp at h
    rw [hid]
    exact ih st (by
      rw [List.all_eq_true]
      intro pat' hp'
      exact (List.all_eq_true.mp h.2) pat' hp')

/-- C7 (amended): project fields are cleared on a workspace switch —
unconditionally by a `navigateToWorkspace` or `createWorkspace` action,
and by heuristic workspace extraction whenever the message does not
contain the substring `"project"`; but the heuristic guard is that
substring test, not "the message names a project", so a message
containing `"project"` inside another word switches the workspace while
keeping stale project fields (see the counterexample). -/
theorem workspace_switch_clears_project :
    (∀ env params (ctx : SessionContext) now,
       jsTruthy (jsGet params "workspaceSlug") = true →
       (updateContextFromCommand env "navigateToWorkspace" params ctx now).projectSlug = none ∧
       (updateContextFromCommand env "navigateToWorkspace" params ctx now).projectName = none) ∧
    (∀ env params (ctx : SessionContext) now,
       jsTruthy (jsGet params "name") = true →
       (updateContextFromCommand env "createWorkspace" params ctx now).projectSlug = none ∧
       (updateContextFromCommand env "createWorkspace" params ctx now).projectName = none) ∧
    (∀ message (ctx : SessionContext) now,
       strIncludes (lowerStr (truncateMsg message)) "project" = false →
       wsAnyFired (truncateMsg message) = true →
       prAnyFired (truncateMsg message) = false →
       (extractContextFromMessage message ctx now).1.projectSlug = none ∧
       (extractContextFromMessage message ctx now).1.projectName = none) := by
  refine ⟨?_, ?_, ?_⟩
  · intro env params ctx now h
    unfold updateContextFromCommand
    simp [h]
  · intro env params ctx now h
    unfold updateContextFromCommand
    simp [h]
  · intro message ctx now hni hws hpr
    unfold extractContextFromMessage
    have hclear := wsfold_clears (lowerStr (truncateMsg message)) (truncateMsg message)
      hni workspacePatterns (ctx, false) (Or.inl hws)
    have hall : projectPatterns.all
        (fun pat => (firstAcceptedProject (reAll pat (truncateMsg message))).isNone) = true := by
      unfold prAnyFired at hpr
      rw [List.all_eq_true]
      intro pat hp
      have hnot := (List.any_eq_false.mp hpr) pat hp
      cases hfa : firstAcceptedProject (reAll pat (truncateMsg message)) with
      | none => rfl
      | some c => rw [hfa] at hnot; simp at hnot
    rw [prfold_id (truncateMsg message) projectPatterns _ hall]
    unfold extractFinish
    rcases hst2 : (workspacePatterns.foldl
        (applyWsPattern (lowerStr (truncateMsg message)) (truncateMsg message))
        (ctx, false)).2 with _ | _
    · rw [if_neg Bool.false_ne_true]
      exact hclear
    · rw [if_pos rfl]
      exact ⟨hclear.1, hclear.2⟩

def ctxOld : SessionContext :=
  { workspaceSlug := some "w-old", workspaceName := some "Old",
    projectSlug := some "p-old", projectName := some "P Old" }

def c7msg : String := "use workspace \"alpha\" noproject"

/-- C7 counterexample: the message `use workspace "alpha" noproject`
switches the workspace heuristically (pattern 1 captures `alpha`, then
pattern 6 overwrites `workspaceName` with its lazy capture `use`), names
no project (no project pattern accepts), yet the stale project fields
`p-old` / `P Old` survive, because the guard only checks for the
substring `project`, which `noproject` contains. -/
theorem stale_project_after_workspace_switch :
    extractContextFromMessage c7msg ctxOld 9 =
      ({ workspaceSlug := some "w-old", workspaceName := some "use",
         projectSlug := some "p-old", projectName := some "P Old",
         lastUpdated := 9, currentWorkSpaceProjectSlug := none }, true) ∧
    prAnyFired (truncateMsg c7msg) = false ∧
    strIncludes (lowerStr (truncateMsg c7msg)) "project" = true :=
  ⟨rfl, rfl, rfl⟩

/-- Witness for the C7 theorem: an action-driven switch and a heuristic
switch without the `project` substring both clear the project fields. -/
theorem workspace_switch_clears_project_witness :
    ((updateContextFromCommand specEnvNotFound "navigateToWorkspace"
        [("workspaceSlug", .str "w2")] ctxOld 9).projectSlug = none ∧
     (updateContextFromCommand specEnvNotFound "navigateToWorkspace"
        [("workspaceSlug", .str "w2")] ctxOld 9).projectName = none) ∧
    ((extractContextFromMessage "go to workspace alpha" ctxOld 9).1.projectSlug = none ∧
     (extractContextFromMessage "go to workspace alpha" ctxOld 9).1.projectName = none) :=
  ⟨workspace_switch_clears_project.1 specEnvNotFound
     [("workspaceSlug", .str "w2")] ctxOld 9 rfl,
   workspace_switch_clears_project.2.2 "go to workspace alpha" ctxOld 9 rfl rfl rfl⟩

end Flowly
